import Mathlib

/-!
Verification of the repository automation sequencer in `src/git_manager.py`
(class `GitManager`).  The external git binary is modelled as an opaque
backend: every `subprocess.run` call either succeeds or fails, and every
query returns a captured stdout string.  A `Backend` record fixes one
behaviour of that collaborator for a run; the Python methods become Lean
functions from the backend behaviour (plus the method arguments) to the
list of observable events (git commands issued, log lines, the report) and
an `Except` value modelling normal return versus a propagating Python
exception (`subprocess.CalledProcessError` from a `check=True` call, or the
exceptions raised by `open`/`json.load` in `load_config`).

String handling in the Python source (`str.split`, `str.replace`,
`str.strip`, slicing, truthiness) is embedded by small `List Char`
functions implementing exactly the Python semantics used at each call site.
-/

namespace GitManager

/-- Python string split on a single-character separator, as in
`status.split("\n")` and `url.split("/")`: always returns at least one
piece, keeps empty pieces. -/
def pySplitAux (sep : Char) (cur : List Char) : List Char → List (List Char)
  | [] => [cur.reverse]
  | c :: rest =>
    if c = sep then cur.reverse :: pySplitAux sep [] rest
    else pySplitAux sep (c :: cur) rest

/-- Split a character list at every occurrence of `sep` (Python `str.split`). -/
def pySplit (sep : Char) (s : List Char) : List (List Char) :=
  pySplitAux sep [] s

/-- Python `str.startswith` on character lists (pattern first): used by the
diff-line filter of `generate_report` and by the `.replace(".git", "")`
scan.  The recursion consumes the pattern first, so an exhausted pattern
answers `true` without inspecting the rest of the string. -/
def pyStartsWith : List Char → List Char → Bool
  | [], _ => true
  | _ :: _, [] => false
  | p :: ps, c :: cs => p == c && pyStartsWith ps cs

/-- Fuel-driven core of Python `s.replace(".git", "")`: scan left to right,
and at each position either skip a non-overlapping occurrence of `.git` or
emit the current character.  The fuel is an upper bound on the number of
scan steps; `remove_git` supplies `l.length`, which always suffices because
every step consumes at least one character. -/
def remove_git_fuel : Nat → List Char → List Char
  | 0, l => l
  | _ + 1, [] => []
  | f + 1, c :: rest =>
    if pyStartsWith ['.', 'g', 'i', 't'] (c :: rest) then
      remove_git_fuel f (List.drop 3 rest)
    else
      c :: remove_git_fuel f rest

/-- Python `s.replace(".git", "")` from `generate_report`: removes every
non-overlapping occurrence of `.git`, scanning left to right. -/
def remove_git (l : List Char) : List Char :=
  remove_git_fuel l.length l

/-- Whether `.git` occurs as a substring (used to state when `remove_git`
acts only on a trailing suffix). -/
def hasGit : List Char → Bool
  | [] => false
  | c :: rest => pyStartsWith ['.', 'g', 'i', 't'] (c :: rest) || hasGit rest

/-- Python `str.strip` on the whitespace used by git output. -/
def pyStrip (l : List Char) : List Char :=
  ((l.dropWhile Char.isWhitespace).reverse.dropWhile Char.isWhitespace).reverse

/-- String-level wrapper for `pyStrip`. -/
def pyStripS (s : String) : String :=
  ⟨pyStrip s.data⟩

/-- A general glob matcher (`*` matches any character sequence), used only to
STATE claim C9: the Python code itself never interprets its `file_pattern`
argument as a glob, it hands it to `os.path.exists` as a literal path.  The
fuel argument is an upper bound on steps; `globMatch` supplies enough. -/
def globMatchF : Nat → List Char → List Char → Bool
  | 0, _, _ => false
  | _ + 1, [], s => s.isEmpty
  | f + 1, '*' :: ps, s =>
    globMatchF f ps s ||
      (match s with
       | [] => false
       | _ :: s' => globMatchF f ('*' :: ps) s')
  | _ + 1, _ :: _, [] => false
  | f + 1, p :: ps, c :: s => p == c && globMatchF f ps s

/-- Glob matching of a pattern against a path. -/
def globMatch (pat s : String) : Bool :=
  globMatchF (2 * (pat.data.length + s.data.length) + 1) pat.data s.data

/-- The configuration record loaded from `config.json`: a JSON object whose
recognized keys are `remote_url` and `branch_name`; an `Option` field is
`some` exactly when the key is present (`"remote_url" in self.config`,
`self.config.get("branch_name", "main")`). -/
structure Config where
  remote_url : Option String := none
  branch_name : Option String := none
deriving DecidableEq

/-- The two ways `load_config` can raise: `open` on a missing file
(`FileNotFoundError`) or `json.load` on malformed content
(`json.JSONDecodeError`).  Both propagate out of `GitManager.__init__`,
which installs no handler. -/
inductive ConfigError
  | fileMissing
  | malformed
deriving DecidableEq

/-- A Python exception propagating out of a method: a
`subprocess.CalledProcessError` from a `check=True` call, or a
configuration-loading error. -/
inductive PyErr
  | calledProcess
  | config (e : ConfigError)
deriving DecidableEq

/-- Observable events of a run: git commands issued through
`subprocess.run`, log lines, and the report file written by
`generate_report` (as its list of `report.write` payloads). -/
inductive GitEvent
  | runInit
  | runRemoteAdd (url : String)
  | runCheckoutNew (branch : String)
  | runAdd (file_pattern : String)
  | runCommit (message : String)
  | runPushTracked (branch : String)
  | runPushForce (branch : String)
  | logInfo (msg : String)
  | logError (msg : String)
  | wroteReport (lines : List String)
deriving DecidableEq

/-- Is the event a `git push` invocation (either variant)? -/
def is_push_event : GitEvent → Bool
  | GitEvent.runPushTracked _ => true
  | GitEvent.runPushForce _ => true
  | _ => false

/-- Is the event a `git remote add` invocation? -/
def is_remote_add : GitEvent → Bool
  | GitEvent.runRemoteAdd _ => true
  | _ => false

/-- Is the event a `git add` invocation? -/
def is_add_event : GitEvent → Bool
  | GitEvent.runAdd _ => true
  | _ => false

/-- One behaviour of the external collaborators (git binary, filesystem,
config file) during a run.  Command outcomes are booleans (`true` = exit
status 0); query commands, which are run without `check=True`, return their
captured stdout. -/
structure Backend where
  /-- Outcome of `load_config`: the parsed JSON object or the exception. -/
  configResult : Except ConfigError Config
  /-- `os.path.exists(".git")` at construction time (`self.init`). -/
  gitDirExists : Bool
  /-- Exit success of `git init`. -/
  initOk : Bool
  /-- Captured stdout of `git remote`. -/
  remoteOutput : String
  /-- Exit success of `git remote add origin <url>`. -/
  remoteAddOk : Bool
  /-- Captured stdout of `git branch --show-current`, already stripped. -/
  currentBranch : String
  /-- Exit success of `git checkout -b <branch>`. -/
  checkoutOk : Bool
  /-- `os.path.exists` on the literal staging pattern. -/
  fileExists : String → Bool
  /-- Exit success of `git add <pattern>`. -/
  addOk : Bool
  /-- Exit success of `git commit -m <msg>`. -/
  commitOk : Bool
  /-- Exit success of `git push` (either variant). -/
  pushOk : Bool
  /-- Captured stdout of `git log -1 --pretty=format:%s`. -/
  lastCommit : String
  /-- Captured stdout of `git log -1 --pretty=format:%ci`. -/
  lastCommitDate : String
  /-- Captured stdout of `git rev-parse --abbrev-ref HEAD`, stripped; the
  report-time current-branch query. -/
  headBranch : String
  /-- Captured stdout of `git status --porcelain`. -/
  statusOutput : String
  /-- Captured stdout of `git diff --unified=0 <file>` per file. -/
  diffOutput : String → String
  /-- Timestamp string interpolated into the report header. -/
  now : String
  /-- Timestamp string interpolated into the report file name. -/
  nowFile : String

/-- `GitManager.initialize_git`: run `git init` when `self.init` is false,
otherwise log that the repository already exists.  Returns the new value of
`self.init`. -/
def initialize_git (initFlag : Bool) (initOk : Bool) :
    List GitEvent × Except PyErr Bool :=
  if initFlag = false then
    if initOk then
      ([GitEvent.runInit, GitEvent.logInfo "Initialized a new Git repository"],
        Except.ok true)
    else
      ([GitEvent.runInit], Except.error PyErr.calledProcess)
  else
    ([GitEvent.logInfo "Git repository already exists"], Except.ok initFlag)

/-- `GitManager.add_remote_url`: query `git remote`; when the stripped
output is empty, register the configured `remote_url` under `origin` (or
log an error when the key is absent); otherwise log that a remote exists. -/
def add_remote_url (cfg : Config) (remoteOutput : String) (remoteAddOk : Bool) :
    List GitEvent × Except PyErr Unit :=
  let existing_remotes := pyStripS remoteOutput
  if existing_remotes = "" then
    match cfg.remote_url with
    | some url =>
      if remoteAddOk then
        ([GitEvent.runRemoteAdd url, GitEvent.logInfo ("Added remote URL: " ++ url)],
          Except.ok ())
      else
        ([GitEvent.runRemoteAdd url], Except.error PyErr.calledProcess)
    | none =>
      ([GitEvent.logError "Remote URL not found in the configuration."], Except.ok ())
  else
    ([GitEvent.logInfo "Remote URL already exists."], Except.ok ())

/-- `GitManager.create_branch`: compare the current branch with the
configured `branch_name` (default `"main"`) and `git checkout -b` when they
differ. -/
def create_branch (cfg : Config) (currentBranch : String) (checkoutOk : Bool) :
    List GitEvent × Except PyErr Unit :=
  let branch_name := cfg.branch_name.getD "main"
  if currentBranch ≠ branch_name then
    if checkoutOk then
      ([GitEvent.runCheckoutNew branch_name,
        GitEvent.logInfo ("Created and switched to branch " ++ branch_name)],
        Except.ok ())
    else
      ([GitEvent.runCheckoutNew branch_name], Except.error PyErr.calledProcess)
  else
    ([GitEvent.logInfo ("Already on branch " ++ branch_name)], Except.ok ())

/-- `GitManager.add_to_staging`: for a pattern other than the default `.`,
first test `os.path.exists` on the literal pattern and skip with a logged
error when it fails; otherwise issue `git add <pattern>`. -/
def add_to_staging (ex : String → Bool) (addOk : Bool) (file_pattern : String) :
    List GitEvent × Except PyErr Unit :=
  if file_pattern ≠ "." ∧ ex file_pattern = false then
    ([GitEvent.logError ("Cannot stage: \x27" ++ file_pattern ++ "\x27 does not exist.")],
      Except.ok ())
  else
    if addOk then
      ([GitEvent.runAdd file_pattern,
        GitEvent.logInfo ("Staged files matching pattern: " ++ file_pattern)],
        Except.ok ())
    else
      ([GitEvent.runAdd file_pattern], Except.error PyErr.calledProcess)

/-- Body of the `try` block of `GitManager.commit_and_push`: commit, then
push (tracked or forced); a failing `check=True` call raises, keeping the
events issued so far. -/
def commit_and_push_body (cfg : Config) (message : String) (force : Bool)
    (commitOk pushOk : Bool) : List GitEvent × Except PyErr Unit :=
  if commitOk then
    let evs := [GitEvent.runCommit message,
      GitEvent.logInfo ("Committed changes with message: " ++ message)]
    let branch_name := cfg.branch_name.getD "main"
    if force = false then
      if pushOk then
        (evs ++ [GitEvent.runPushTracked branch_name], Except.ok ())
      else
        (evs ++ [GitEvent.runPushTracked branch_name], Except.error PyErr.calledProcess)
    else
      if pushOk then
        (evs ++ [GitEvent.runPushForce branch_name,
          GitEvent.logInfo ("Pushed changes to remote repository on branch " ++ branch_name)],
          Except.ok ())
      else
        (evs ++ [GitEvent.runPushForce branch_name], Except.error PyErr.calledProcess)
  else
    ([GitEvent.runCommit message], Except.error PyErr.calledProcess)

/-- `GitManager.commit_and_push`: the `try` body with its
`except subprocess.CalledProcessError` handler, which logs the error and
returns normally. -/
def commit_and_push (cfg : Config) (message : String) (force : Bool)
    (commitOk pushOk : Bool) : List GitEvent × Except PyErr Unit :=
  match commit_and_push_body cfg message force commitOk pushOk with
  | (evs, Except.ok _) => (evs, Except.ok ())
  | (evs, Except.error _) =>
    (evs ++ [GitEvent.logError "Error in committing or pushing: CalledProcessError"],
      Except.ok ())

/-- The forty-character `=` rule of the report header. -/
def eq40 : String := ⟨List.replicate 40 '='⟩

/-- The fifty-character `=` rule of the changed-files section. -/
def eq50 : String := ⟨List.replicate 50 '='⟩

/-- The seventy-character `=` rule closing a per-file diff block. -/
def eq70 : String := ⟨List.replicate 70 '='⟩

/-- The seventy-character `-` rule under a `File Checked` line. -/
def dash70 : String := ⟨List.replicate 70 '-'⟩

/-- Status parsing in `generate_report`:
`[line[3:] for line in status.split("\n") if line]`. -/
def changed_files (status : String) : List String :=
  ((pySplit '\n' status.data).filter (fun l => !l.isEmpty)).map
    (fun l => (⟨l.drop 3⟩ : String))

/-- The diff-line filter of `generate_report`: keep added lines (`+` but not
`+++`), removed lines (`-` but not `---`), and hunk headers (`@@`). -/
def keepDiffLine (l : List Char) : Bool :=
  (pyStartsWith ['+'] l && !(pyStartsWith ['+', '+', '+'] l)) ||
    (pyStartsWith ['-'] l && !(pyStartsWith ['-', '-', '-'] l)) ||
    (pyStartsWith ['@', '@'] l)

/-- The lines of one file's diff that `generate_report` re-emits, each with
its trailing newline. -/
def diff_kept_lines (diff : String) : List String :=
  ((pySplit '\n' diff.data).filter keepDiffLine).map
    (fun l => (⟨l⟩ : String) ++ "\n")

/-- The block `generate_report` writes for one changed file: the
`File Checked` line and rule, then either the filtered diff or the
no-content marker (Python tests `if diff_output:`, i.e. non-emptiness). -/
def file_section (diffOf : String → String) (file : String) : List String :=
  ["File Checked: " ++ file ++ "\n", dash70 ++ "\n"] ++
    (if diffOf file ≠ "" then
      ["File: " ++ file ++ "\n", eq50 ++ "\n"] ++
        diff_kept_lines (diffOf file) ++ ["\n" ++ eq70 ++ "\n\n"]
    else
      ["No content changes detected.\n"])

/-- The `repo_name` computation of `generate_report`:
`self.config.get("remote_url", "Unknown").split("/")[-1].replace(".git", "")`.
Python `split` always returns a non-empty list, so the `[-1]` index never
fails; `getLastD []` is its total rendering. -/
def repo_name (cfg : Config) : String :=
  ⟨remove_git ((pySplit '/' (cfg.remote_url.getD "Unknown").data).getLastD [])⟩

/-- `GitManager.generate_report` as the list of `report.write` payloads, in
order; their concatenation is the report file content.  The method also
queries `git rev-parse --abbrev-ref HEAD` into a local variable
(`Backend.headBranch`), but that variable is used nowhere in the report
body: the `Branch:` line interpolates `self.config.get("branch_name",
"main")`. -/
def generate_report (cfg : Config) (b : Backend) : List String :=
  let status := b.statusOutput
  let files := changed_files status
  let changes_detected : String :=
    if status ≠ "" then "Uncommitted Changes Detected" else "Up to date"
  ([eq40 ++ "\n",
    "              Git Report      \n",
    "      Generated on :" ++ b.now ++ "     \n",
    eq40 ++ "\n\n",
    "Repository: " ++ repo_name cfg ++ "\n",
    "Branch: " ++ cfg.branch_name.getD "main" ++ "\n",
    "Last Commit: " ++ (if b.lastCommit ≠ "" then b.lastCommit else "(No commits yet)") ++ "\n",
    "Last Commit Date: " ++ (if b.lastCommitDate ≠ "" then b.lastCommitDate else "N/A") ++ "\n",
    "Changes Pushed: " ++ (if status ≠ "" then "No" else "Yes") ++ "\n",
    "Status: " ++ changes_detected ++ "\n"] : List String) ++
  (if files ≠ [] then
    [eq50 ++ "\n", "Modified Files and Changes\n", eq50 ++ "\n"] ++
      (files.map (file_section b.diffOutput)).flatten
  else
    ["No files changes detected.\n"])

/-- The timestamped report path. -/
def report_path (b : Backend) : String :=
  "reports/git_report_" ++ b.nowFile ++ ".txt"

/-- Sequencing of two steps of the `__main__` block: a propagating
exception in the first step aborts the run, otherwise the second step runs
and the events accumulate. -/
def step_seq (a : List GitEvent × Except PyErr Unit)
    (f : Unit → List GitEvent × Except PyErr Unit) :
    List GitEvent × Except PyErr Unit :=
  match a with
  | (evs, Except.ok _) => (evs ++ (f ()).fst, (f ()).snd)
  | (evs, Except.error e) => (evs, Except.error e)

/-- Forget a step's return value, keeping its exception behaviour. -/
def discard {α : Type} (a : List GitEvent × Except PyErr α) :
    List GitEvent × Except PyErr Unit :=
  (a.fst, a.snd.map fun _ => ())

/-- The `__main__` block: construct `GitManager` (load the configuration —
a raised `ConfigError` aborts everything before any other step), then run
`initialize_git`, `add_remote_url`, `create_branch`,
`add_to_staging("src/git_manager.py")`,
`commit_and_push("Updated project", force=True)`, `generate_report`. -/
def mainSequence (b : Backend) : List GitEvent × Except PyErr Unit :=
  match b.configResult with
  | Except.error e => ([], Except.error (PyErr.config e))
  | Except.ok cfg =>
    step_seq ([GitEvent.logInfo "Loaded configuration from config.json"], Except.ok ()) fun _ =>
    step_seq (discard (initialize_git b.gitDirExists b.initOk)) fun _ =>
    step_seq (add_remote_url cfg b.remoteOutput b.remoteAddOk) fun _ =>
    step_seq (create_branch cfg b.currentBranch b.checkoutOk) fun _ =>
    step_seq (add_to_staging b.fileExists b.addOk "src/git_manager.py") fun _ =>
    step_seq (commit_and_push cfg "Updated project" true b.commitOk b.pushOk) fun _ =>
    ([GitEvent.wroteReport (generate_report cfg b),
      GitEvent.logInfo ("Git report saved at " ++ report_path b)], Except.ok ())

/-- All steps of `__main__` that precede `commit_and_push` complete without
a propagating exception under this backend behaviour. -/
def pre_commit_ok (b : Backend) : Bool :=
  match b.configResult with
  | Except.error _ => false
  | Except.ok cfg =>
    (b.gitDirExists || b.initOk) &&
    (!(pyStripS b.remoteOutput = "") ||
      (match cfg.remote_url with
       | some _ => b.remoteAddOk
       | none => true)) &&
    (b.currentBranch == cfg.branch_name.getD "main" || b.checkoutOk) &&
    (!b.fileExists "src/git_manager.py" || b.addOk)

/-- Spec-side repository naming (the reading claim C4 asserts): final
slash-separated segment of the URL with a single trailing `.git` suffix
stripped, and nothing else. -/
def spec_repo_name (url : String) : String :=
  let seg : List Char := (pySplit '/' url.data).getLastD []
  if ['.', 'g', 'i', 't'].isSuffixOf seg then ⟨seg.take (seg.length - 4)⟩ else ⟨seg⟩

/-- A concrete backend behaviour used to exercise the theorems on explicit
inputs: repository already initialized, remote configured, branch already
`main`, clean working tree, all commands succeeding. -/
def baseBackend : Backend where
  configResult := Except.ok ⟨some "https://h/org/myrepo.git", some "main"⟩
  gitDirExists := true
  initOk := true
  remoteOutput := ""
  remoteAddOk := true
  currentBranch := "main"
  checkoutOk := true
  fileExists := fun _ => true
  addOk := true
  commitOk := true
  pushOk := true
  lastCommit := "Updated project"
  lastCommitDate := "2025-01-01 00:00:00 +0000"
  headBranch := "dev"
  statusOutput := ""
  diffOutput := fun _ => ""
  now := "2025-01-01 00:00:00"
  nowFile := "2025-01-01_00-00-00"

/-- Recognizer for the `File Checked:` lines of the report, used to state
the round-trip property: on `"File Checked: " ++ f ++ "\n"` it returns
`some f` (the prefix is 14 characters, the trailing newline is dropped);
on every other write payload of `generate_report` it returns `none`. -/
def fc_payload (s : String) : Option String :=
  if pyStartsWith "File Checked: ".data s.data then
    some ⟨(s.data.drop 14).dropLast⟩
  else
    none

/-- A concrete backend behaviour with a dirty working tree: two changed
files, one with diff output and one without. -/
def dirtyBackend : Backend :=
  { baseBackend with
    statusOutput := " M a.txt\n?? b.txt\n",
    diffOutput := fun s => if s = "a.txt" then "@@ -1 +1 @@\n-old\n+new\n" else "" }

/-- C5: for every pattern different from the default `.`, `add_to_staging`
first validates that the path exists; when it does not, no `git add` is
issued and an error is logged (the method returns normally); for the
default pattern `.` the `git add` command is always issued, with no
existence check. -/
theorem add_to_staging_checks_existence :
    ∀ (ex : String → Bool) (addOk : Bool) (file_pattern : String),
      (file_pattern ≠ "." → ex file_pattern = false →
        add_to_staging ex addOk file_pattern =
          ([GitEvent.logError ("Cannot stage: \x27" ++ file_pattern ++ "\x27 does not exist.")],
            Except.ok ())) ∧
      GitEvent.runAdd "." ∈ (add_to_staging ex addOk ".").fst := by
  intro ex addOk p
  refine ⟨fun h1 h2 => ?_, ?_⟩
  · unfold add_to_staging
    rw [if_pos ⟨h1, h2⟩]
  · unfold add_to_staging
    rw [if_neg (by simp)]
    cases addOk <;> simp

/-- Witness for `add_to_staging_checks_existence` at a nonexistent path and
at the default pattern. -/
theorem add_to_staging_checks_existence_witness :
    add_to_staging (fun _ => false) true "missing/path" =
      ([GitEvent.logError "Cannot stage: \x27missing/path\x27 does not exist."],
        Except.ok ()) ∧
    GitEvent.runAdd "." ∈ (add_to_staging (fun _ => false) true ".").fst :=
  ⟨(add_to_staging_checks_existence (fun _ => false) true "missing/path").1
      (by decide) rfl,
    (add_to_staging_checks_existence (fun _ => false) true "anything").2⟩

/-- C9 (implicit): the existence check in `add_to_staging` treats the
pattern as a literal filesystem path, not as a glob: a non-`.` pattern that
matches existing files under glob semantics but is not itself an existing
path is still rejected — no `git add` is issued and an error is logged. -/
theorem add_to_staging_ignores_glob_semantics :
    ∀ (fs : List String) (addOk : Bool) (file_pattern : String),
      file_pattern ≠ "." → fs.contains file_pattern = false →
      (∃ f ∈ fs, globMatch file_pattern f = true) →
      add_to_staging (fun q => fs.contains q) addOk file_pattern =
        ([GitEvent.logError ("Cannot stage: \x27" ++ file_pattern ++ "\x27 does not exist.")],
          Except.ok ()) := by
  intro fs addOk p h1 h2 _
  unfold add_to_staging
  rw [if_pos ⟨h1, h2⟩]

/-- Witness for `add_to_staging_ignores_glob_semantics`: the glob `*.py`
matches the existing file `script.py`, yet staging is skipped. -/
theorem add_to_staging_ignores_glob_semantics_witness :
    globMatch "*.py" "script.py" = true ∧
    add_to_staging (fun q => (["script.py"] : List String).contains q) true "*.py" =
      ([GitEvent.logError "Cannot stage: \x27*.py\x27 does not exist."], Except.ok ()) :=
  ⟨by decide,
    add_to_staging_ignores_glob_semantics ["script.py"] true "*.py" (by decide) (by decide)
      ⟨"script.py", by decide, by decide⟩⟩

/-- C6: `initialize_git` is idempotent.  From a fresh directory
(`self.init = false`), the call issues exactly one `git init` command and,
when it succeeds, sets the flag to `true`; with the flag set, every call
issues no command at all, raises nothing, and logs that the repository
already exists. -/
theorem initialize_git_idempotent :
    (∀ initOk : Bool, (initialize_git false initOk).fst.count GitEvent.runInit = 1) ∧
    initialize_git false true =
      ([GitEvent.runInit, GitEvent.logInfo "Initialized a new Git repository"],
        Except.ok true) ∧
    (∀ initOk : Bool,
      initialize_git true initOk =
        ([GitEvent.logInfo "Git repository already exists"], Except.ok true) ∧
      (initialize_git true initOk).fst.count GitEvent.runInit = 0) := by
  refine ⟨fun ok => ?_, rfl, fun ok => ⟨rfl, rfl⟩⟩
  cases ok <;> decide

/-- C7: `add_remote_url` registers exactly one remote when `git remote`
reports none and the configuration has a `remote_url`; when a remote
already exists it registers none and does not error; when none exists and
no URL is configured it logs an error and returns normally. -/
theorem add_remote_url_registers_once :
    ∀ (cfg : Config) (remoteOutput : String) (remoteAddOk : Bool),
      (pyStripS remoteOutput = "" → ∀ url, cfg.remote_url = some url →
        (add_remote_url cfg remoteOutput remoteAddOk).fst.countP is_remote_add = 1) ∧
      (pyStripS remoteOutput ≠ "" →
        add_remote_url cfg remoteOutput remoteAddOk =
          ([GitEvent.logInfo "Remote URL already exists."], Except.ok ())) ∧
      (pyStripS remoteOutput = "" → cfg.remote_url = none →
        add_remote_url cfg remoteOutput remoteAddOk =
          ([GitEvent.logError "Remote URL not found in the configuration."],
            Except.ok ())) := by
  intro cfg out addOk
  refine ⟨fun h url hurl => ?_, fun h => ?_, fun h hnone => ?_⟩
  · unfold add_remote_url
    rw [if_pos h, hurl]
    cases addOk <;> rfl
  · unfold add_remote_url
    rw [if_neg h]
  · unfold add_remote_url
    rw [if_pos h, hnone]

/-- Witness for `add_remote_url_registers_once` covering all three cases
on concrete inputs. -/
theorem add_remote_url_registers_once_witness :
    (add_remote_url ⟨some "https://host/org/repo.git", none⟩ "" true).fst.countP
        is_remote_add = 1 ∧
    add_remote_url ⟨some "https://host/org/repo.git", none⟩ "origin\n" true =
      ([GitEvent.logInfo "Remote URL already exists."], Except.ok ()) ∧
    add_remote_url ⟨none, none⟩ "" true =
      ([GitEvent.logError "Remote URL not found in the configuration."], Except.ok ()) :=
  ⟨(add_remote_url_registers_once _ "" true).1 (by decide) _ rfl,
    (add_remote_url_registers_once _ "origin\n" true).2.1 (by decide),
    (add_remote_url_registers_once _ "" true).2.2 (by decide) rfl⟩

/-- C8: a configuration-loading failure propagates out of the constructor
and aborts the whole `__main__` sequence before any other step runs: no
command is issued, no log line written, no report generated, and the
process ends with the propagating error. -/
theorem config_error_is_fatal :
    ∀ (b : Backend) (e : ConfigError), b.configResult = Except.error e →
      mainSequence b = ([], Except.error (PyErr.config e)) := by
  intro b e h
  unfold mainSequence
  rw [h]

/-- Witness for `config_error_is_fatal` at a missing configuration file. -/
theorem config_error_is_fatal_witness :
    mainSequence { baseBackend with configResult := Except.error ConfigError.fileMissing } =
      ([], Except.error (PyErr.config ConfigError.fileMissing)) :=
  config_error_is_fatal _ ConfigError.fileMissing rfl

/-- C10 (implicit): inside `commit_and_push`, a push command is issued only
after the commit command succeeds — when the commit fails, no push command
appears among the issued commands. -/
theorem push_only_after_commit :
    ∀ (cfg : Config) (message : String) (force pushOk commitOk : Bool),
      commitOk = false →
      ∀ e ∈ (commit_and_push cfg message force commitOk pushOk).fst,
        is_push_event e = false := by
  intro cfg msg force pushOk commitOk h e he
  subst h
  have hc : commit_and_push cfg msg force false pushOk =
      ([GitEvent.runCommit msg,
        GitEvent.logError "Error in committing or pushing: CalledProcessError"],
        Except.ok ()) := rfl
  rw [hc] at he
  simp only [List.mem_cons, List.not_mem_nil, or_false] at he
  rcases he with rfl | rfl <;> rfl

/-- Witness for `push_only_after_commit`: with a failing commit, the event
list of `commit_and_push` holds no push command. -/
theorem push_only_after_commit_witness :
    (commit_and_push ⟨none, none⟩ "msg" true false true).fst.countP is_push_event = 0 := by
  rw [List.countP_eq_zero]
  intro e he
  simpa using push_only_after_commit ⟨none, none⟩ "msg" true true false rfl e he

/-- Sequencing past a step whose result is a normal return. -/
theorem step_seq_of_snd_ok (a : List GitEvent × Except PyErr Unit)
    (f : Unit → List GitEvent × Except PyErr Unit) (h : a.snd = Except.ok ()) :
    step_seq a f = (a.fst ++ (f ()).fst, (f ()).snd) := by
  rcases a with ⟨evs, r⟩
  cases r with
  | error e => simp at h
  | ok u => cases u; rfl

/-- The exception handler of `commit_and_push` makes it return normally for
every backend behaviour. -/
theorem commit_and_push_returns_normally (cfg : Config) (message : String)
    (force commitOk pushOk : Bool) :
    (commit_and_push cfg message force commitOk pushOk).snd = Except.ok () := by
  unfold commit_and_push
  rcases h : commit_and_push_body cfg message force commitOk pushOk with ⟨evs, r⟩
  cases r <;> rfl

/-- When the commit or the push fails, `commit_and_push` logs the caught
error. -/
theorem commit_and_push_logs_error (cfg : Config) (message : String)
    (force commitOk pushOk : Bool) (h : commitOk = false ∨ pushOk = false) :
    GitEvent.logError "Error in committing or pushing: CalledProcessError" ∈
      (commit_and_push cfg message force commitOk pushOk).fst := by
  rcases h with h | h <;> subst h
  · simp [commit_and_push, commit_and_push_body]
  · cases commitOk <;> cases force <;> simp [commit_and_push, commit_and_push_body]

/-- A surviving `initialize_git` step returns normally. -/
theorem discard_initialize_git_snd_ok (g i : Bool) (h : (g || i) = true) :
    (discard (initialize_git g i)).snd = Except.ok () := by
  cases g <;> cases i <;> simp_all [initialize_git, discard, Except.map]

/-- A surviving `add_remote_url` step returns normally. -/
theorem add_remote_url_snd_ok (cfg : Config) (out : String) (addOk : Bool)
    (h : pyStripS out = "" → ∀ url, cfg.remote_url = some url → addOk = true) :
    (add_remote_url cfg out addOk).snd = Except.ok () := by
  by_cases hs : pyStripS out = ""
  · rcases hurl : cfg.remote_url with _ | url
    · simp [add_remote_url, hs, hurl]
    · have ha := h hs url hurl
      subst ha
      simp [add_remote_url, hs, hurl]
  · simp [add_remote_url, hs]

/-- A surviving `create_branch` step returns normally. -/
theorem create_branch_snd_ok (cfg : Config) (cur : String) (ck : Bool)
    (h : cur = cfg.branch_name.getD "main" ∨ ck = true) :
    (create_branch cfg cur ck).snd = Except.ok () := by
  by_cases hc : cur = cfg.branch_name.getD "main"
  · simp [create_branch, hc]
  · rcases h with h | h
    · exact absurd h hc
    · subst h
      simp [create_branch, hc]

/-- A surviving `add_to_staging` step returns normally. -/
theorem add_to_staging_snd_ok (ex : String → Bool) (addOk : Bool) (p : String)
    (h : (p ≠ "." ∧ ex p = false) ∨ addOk = true) :
    (add_to_staging ex addOk p).snd = Except.ok () := by
  by_cases hc : p ≠ "." ∧ ex p = false
  · simp [add_to_staging, hc]
  · rcases h with h | h
    · exact absurd h hc
    · subst h
      unfold add_to_staging
      by_cases hc2 : p ≠ "." ∧ ex p = false <;> simp [hc2]

/-- C2: any backend error during commit or push is caught by
`commit_and_push`, which logs it and returns normally, so the `__main__`
sequence continues: whenever the steps before `commit_and_push` survive and
the commit or the push fails, the run still completes normally, writes the
report, and logs the caught error. -/
theorem commit_push_errors_swallowed :
    ∀ (b : Backend),
      (∀ (cfg : Config) (message : String) (force : Bool),
        (commit_and_push cfg message force b.commitOk b.pushOk).snd = Except.ok ()) ∧
      (pre_commit_ok b = true → (b.commitOk = false ∨ b.pushOk = false) →
        (mainSequence b).snd = Except.ok () ∧
        (∃ report, GitEvent.wroteReport report ∈ (mainSequence b).fst) ∧
        GitEvent.logError "Error in committing or pushing: CalledProcessError" ∈
          (mainSequence b).fst) := by
  intro b
  refine ⟨fun cfg msg force => commit_and_push_returns_normally cfg msg force _ _,
    fun hpre hfail => ?_⟩
  unfold pre_commit_ok at hpre
  rcases hcfg : b.configResult with e | cfg
  · rw [hcfg] at hpre
    exact absurd hpre (by simp)
  · rw [hcfg] at hpre
    simp only [Bool.and_eq_true] at hpre
    obtain ⟨⟨⟨h1, h2⟩, h3⟩, h4⟩ := hpre
    have s1 : (discard (initialize_git b.gitDirExists b.initOk)).snd = Except.ok () :=
      discard_initialize_git_snd_ok _ _ h1
    have s2 : (add_remote_url cfg b.remoteOutput b.remoteAddOk).snd = Except.ok () := by
      refine add_remote_url_snd_ok _ _ _ (fun hs url hurl => ?_)
      rw [hs, hurl] at h2
      simpa using h2
    have s3 : (create_branch cfg b.currentBranch b.checkoutOk).snd = Except.ok () := by
      refine create_branch_snd_ok _ _ _ ?_
      simpa using h3
    have s4 : (add_to_staging b.fileExists b.addOk "src/git_manager.py").snd =
        Except.ok () := by
      refine add_to_staging_snd_ok _ _ _ ?_
      cases hex : b.fileExists "src/git_manager.py"
      · exact Or.inl ⟨by decide, rfl⟩
      · rw [hex] at h4
        simp at h4
        exact Or.inr h4
    have s5 := commit_and_push_returns_normally cfg "Updated project" true b.commitOk b.pushOk
    have hmain : mainSequence b =
        ([GitEvent.logInfo "Loaded configuration from config.json"] ++
          ((discard (initialize_git b.gitDirExists b.initOk)).fst ++
          ((add_remote_url cfg b.remoteOutput b.remoteAddOk).fst ++
          ((create_branch cfg b.currentBranch b.checkoutOk).fst ++
          ((add_to_staging b.fileExists b.addOk "src/git_manager.py").fst ++
          ((commit_and_push cfg "Updated project" true b.commitOk b.pushOk).fst ++
          [GitEvent.wroteReport (generate_report cfg b),
            GitEvent.logInfo ("Git report saved at " ++ report_path b)]))))),
          Except.ok ()) := by
      unfold mainSequence
      rw [hcfg]
      simp only [step_seq_of_snd_ok, s1, s2, s3, s4, s5]
    refine ⟨by rw [hmain], ⟨generate_report cfg b, by rw [hmain]; simp⟩, ?_⟩
    rw [hmain]
    have hle := commit_and_push_logs_error cfg "Updated project" true b.commitOk b.pushOk hfail
    simp only [List.mem_append, List.mem_cons]
    tauto

/-- Witness for `commit_push_errors_swallowed`: a run whose push fails
still completes normally, writes the report, and logs the error. -/
theorem commit_push_errors_swallowed_witness :
    (mainSequence { baseBackend with pushOk := false }).snd = Except.ok () ∧
    (∃ report, GitEvent.wroteReport report ∈
      (mainSequence { baseBackend with pushOk := false }).fst) ∧
    GitEvent.logError "Error in committing or pushing: CalledProcessError" ∈
      (mainSequence { baseBackend with pushOk := false }).fst :=
  (commit_push_errors_swallowed _).2 (by decide) (Or.inr rfl)

/-- Counterexample to C1: `generate_report` writes the configured
`branch_name` into the `Branch:` line, not the value of the report-time
current-branch query.  With the backend reporting `dev` as the current
branch and the configuration holding `main`, the report contains
`Branch: main` and not `Branch: dev`. -/
theorem report_branch_from_backend_counterexample :
    baseBackend.headBranch = "dev" ∧
    "Branch: main\n" ∈
      generate_report ⟨some "https://h/org/myrepo.git", some "main"⟩ baseBackend ∧
    "Branch: dev\n" ∉
      generate_report ⟨some "https://h/org/myrepo.git", some "main"⟩ baseBackend := by
  refine ⟨rfl, by decide, by decide⟩

/-- C1 as amended: the `Branch:` line of the report contains the configured
`branch_name` (default `main`); the current-branch value queried from the
backend at report time does not affect the report at all. -/
theorem report_branch_line_is_configured_branch :
    ∀ (cfg : Config) (b : Backend),
      ("Branch: " ++ cfg.branch_name.getD "main" ++ "\n") ∈ generate_report cfg b ∧
      ∀ s : String,
        generate_report cfg { b with headBranch := s } = generate_report cfg b := by
  intro cfg b
  refine ⟨?_, fun s => rfl⟩
  simp only [generate_report]
  apply List.mem_append_left
  simp

/-- The default value of `getLastD` is irrelevant on a non-empty list. -/
theorem getLastD_congr {α : Type} (l : List α) (d d' : α) (h : l ≠ []) :
    l.getLastD d = l.getLastD d' := by
  cases l with
  | nil => exact absurd rfl h
  | cons a t =>
    cases t with
    | nil => rfl
    | cons b t2 => simp only [List.getLastD_cons]

/-- Python `split` never yields an empty list of pieces. -/
theorem pySplitAux_ne_nil (sep : Char) (l : List Char) :
    ∀ acc, pySplitAux sep acc l ≠ [] := by
  induction l with
  | nil => intro acc; simp [pySplitAux]
  | cons c rest ih =>
    intro acc
    by_cases hc : c = sep
    · simp [pySplitAux, hc]
    · simpa [pySplitAux, hc] using ih (c :: acc)

/-- Splitting a separator-free list yields one piece. -/
theorem pySplitAux_no_sep (sep : Char) (l : List Char) (h : sep ∉ l) :
    ∀ acc, pySplitAux sep acc l = [acc.reverse ++ l] := by
  induction l with
  | nil => intro acc; simp [pySplitAux]
  | cons c rest ih =>
    intro acc
    have hc : c ≠ sep := fun e => h (e ▸ List.mem_cons_self c rest)
    rw [pySplitAux, if_neg hc, ih (fun hm => h (List.mem_cons_of_mem c hm)) (c :: acc)]
    simp

/-- The last piece of a split is determined by the part after the last
separator occurrence that follows `xs`. -/
theorem pySplitAux_getLastD_append_sep (sep : Char) (xs ys : List Char) :
    ∀ acc, (pySplitAux sep acc (xs ++ sep :: ys)).getLastD [] =
      (pySplit sep ys).getLastD [] := by
  induction xs with
  | nil =>
    intro acc
    rw [List.nil_append, pySplitAux, if_pos rfl, List.getLastD_cons]
    exact getLastD_congr _ _ _ (pySplitAux_ne_nil sep ys [])
  | cons c xs ih =>
    intro acc
    by_cases hc : c = sep
    · subst hc
      rw [List.cons_append, pySplitAux, if_pos rfl, List.getLastD_cons]
      exact (getLastD_congr _ acc.reverse []
        (pySplitAux_ne_nil c (xs ++ c :: ys) [])).trans (ih [])
    · rw [List.cons_append, pySplitAux, if_neg hc]
      exact ih (c :: acc)

/-- The last slash-separated segment of `p ++ "/" ++ n ++ ".git"` when `n`
holds no slash. -/
theorem pySplit_last_of_append (p n : String) (hn : '/' ∉ n.data) :
    (pySplit '/' (p ++ "/" ++ n ++ ".git").data).getLastD [] =
      n.data ++ ['.', 'g', 'i', 't'] := by
  have hdata : (p ++ "/" ++ n ++ ".git").data =
      p.data ++ '/' :: (n.data ++ ['.', 'g', 'i', 't']) := by
    rw [show (p ++ "/" ++ n ++ ".git").data =
      ((p.data ++ ['/']) ++ n.data) ++ ['.', 'g', 'i', 't'] from rfl]
    simp
  rw [hdata, pySplit, pySplitAux_getLastD_append_sep]
  rw [pySplit, pySplitAux_no_sep '/' _ ?_ []]
  · simp
  · intro hm
    rcases List.mem_append.mp hm with h | h
    · exact hn h
    · simp at h

/-- No new `.git` occurrence can begin inside a list whose own start is not
an occurrence, even after appending `.git`. -/
theorem git_not_prefix_append (c : Char) (rest : List Char)
    (h : pyStartsWith ['.', 'g', 'i', 't'] (c :: rest) = false) :
    pyStartsWith ['.', 'g', 'i', 't'] ((c :: rest) ++ ['.', 'g', 'i', 't']) = false := by
  match rest with
  | [] =>
    simp [pyStartsWith, show (('g' : Char) == '.') = false from rfl]
  | [b] =>
    simp [pyStartsWith, show (('i' : Char) == '.') = false from rfl]
  | [b, d] =>
    simp [pyStartsWith, show (('t' : Char) == '.') = false from rfl]
  | b :: d :: e :: rest2 =>
    simp [pyStartsWith] at h ⊢
    exact h

/-- `remove_git_fuel` on the empty list. -/
theorem remove_git_fuel_nil_list (f : Nat) : remove_git_fuel f [] = [] := by
  cases f <;> rfl

/-- When `.git` does not occur in `l`, the replacement scan removes exactly
the trailing occurrence from `l ++ ".git"`. -/
theorem remove_git_fuel_append_git :
    ∀ (l : List Char) (f : Nat), l.length + 4 ≤ f → hasGit l = false →
      remove_git_fuel f (l ++ ['.', 'g', 'i', 't']) = l := by
  intro l
  induction l with
  | nil =>
    intro f hf _
    match f, hf with
    | f + 1, _ =>
      rw [List.nil_append]
      simp [remove_git_fuel, remove_git_fuel_nil_list, pyStartsWith]
  | cons c rest ih =>
    intro f hf h
    have hsplit : pyStartsWith ['.', 'g', 'i', 't'] (c :: rest) = false ∧
        hasGit rest = false := by
      rw [hasGit, Bool.or_eq_false_iff] at h
      exact h
    match f, hf with
    | f + 1, hf =>
      have hp := git_not_prefix_append c rest hsplit.1
      rw [List.cons_append] at hp ⊢
      rw [remove_git_fuel, if_neg (by simp [hp])]
      rw [ih f (by simpa using Nat.le_of_succ_le_succ hf) hsplit.2]

/-- `remove_git` strips a trailing `.git` exactly when no other occurrence
exists in the prefix. -/
theorem remove_git_append_git (l : List Char) (h : hasGit l = false) :
    remove_git (l ++ ['.', 'g', 'i', 't']) = l := by
  rw [remove_git]
  refine remove_git_fuel_append_git l _ ?_ h
  simp

/-- The `repo_name` of a URL `p ++ "/" ++ n ++ ".git"` whose name part `n`
holds no slash and no interior `.git` is `n`. -/
theorem repo_name_of_clean_suffix (cfg : Config) (p n : String)
    (hurl : cfg.remote_url = some (p ++ "/" ++ n ++ ".git"))
    (hn : '/' ∉ n.data) (hg : hasGit n.data = false) :
    repo_name cfg = n := by
  unfold repo_name
  rw [hurl]
  rw [show (some (p ++ "/" ++ n ++ ".git")).getD "Unknown" =
    p ++ "/" ++ n ++ ".git" from rfl]
  rw [pySplit_last_of_append p n hn, remove_git_append_git n.data hg]

/-- The report always carries a `Repository:` line showing `repo_name`. -/
theorem repository_line_mem (cfg : Config) (b : Backend) :
    ("Repository: " ++ repo_name cfg ++ "\n") ∈ generate_report cfg b := by
  simp only [generate_report]
  apply List.mem_append_left
  simp

/-- Counterexample to C4: `.replace(".git", "")` removes every occurrence
of `.git` in the final URL segment, not only a trailing suffix.  For the
remote URL `https://h/a.gitb.git`, suffix-only stripping would give
`a.gitb`, but the report shows `ab`. -/
theorem repo_name_suffix_only_counterexample :
    spec_repo_name "https://h/a.gitb.git" = "a.gitb" ∧
    "Repository: ab\n" ∈
      generate_report ⟨some "https://h/a.gitb.git", some "main"⟩ baseBackend ∧
    "Repository: a.gitb\n" ∉
      generate_report ⟨some "https://h/a.gitb.git", some "main"⟩ baseBackend := by
  refine ⟨by decide, by decide, by decide⟩

/-- C4 as amended: the repository name shown in the report is the final
slash-separated segment of the remote URL with every left-to-right
occurrence of `.git` removed; when the segment is `n ++ ".git"` with no
`.git` occurrence inside `n` (the common case, e.g. `.../myrepo.git`),
this coincides with stripping the suffix and yields `n`. -/
theorem repo_name_strips_all_git_occurrences :
    ∀ (cfg : Config) (b : Backend),
      ("Repository: " ++ repo_name cfg ++ "\n") ∈ generate_report cfg b ∧
      ∀ (p n : String), cfg.remote_url = some (p ++ "/" ++ n ++ ".git") →
        '/' ∉ n.data → hasGit n.data = false → repo_name cfg = n :=
  fun cfg b => ⟨repository_line_mem cfg b,
    fun p n hurl hn hg => repo_name_of_clean_suffix cfg p n hurl hn hg⟩

/-- Witness for `repo_name_strips_all_git_occurrences` on the spec's own
example: `.../myrepo.git` yields `myrepo`. -/
theorem repo_name_strips_all_git_occurrences_witness :
    repo_name ⟨some ("https://h/org" ++ "/" ++ "myrepo" ++ ".git"), some "main"⟩ =
      "myrepo" ∧
    ("Repository: " ++
        repo_name ⟨some ("https://h/org" ++ "/" ++ "myrepo" ++ ".git"), some "main"⟩ ++
        "\n") ∈
      generate_report ⟨some ("https://h/org" ++ "/" ++ "myrepo" ++ ".git"), some "main"⟩
        baseBackend :=
  ⟨(repo_name_strips_all_git_occurrences _ baseBackend).2 "https://h/org" "myrepo"
      rfl (by decide) (by decide),
    (repo_name_strips_all_git_occurrences _ baseBackend).1⟩

/-- `fc_payload` recovers the path from a `File Checked:` line. -/
theorem fc_payload_fc (g : String) :
    fc_payload ("File Checked: " ++ g ++ "\n") = some g := by
  have h : (("File Checked: " ++ g ++ "\n").data.drop 14).dropLast = g.data := by
    show (g.data ++ ['\n']).dropLast = g.data
    rw [List.dropLast_concat]
  show some (⟨(("File Checked: " ++ g ++ "\n").data.drop 14).dropLast⟩ : String) = some g
  rw [h]

/-- A line kept by the diff filter starts with `+`, `-`, or `@`. -/
theorem keep_head (l : List Char) (h : keepDiffLine l = true) :
    ∃ c t, l = c :: t ∧ (c = '+' ∨ c = '-' ∨ c = '@') := by
  cases l with
  | nil => exact absurd h (by decide)
  | cons c t =>
    refine ⟨c, t, rfl, ?_⟩
    by_contra hc
    push_neg at hc
    obtain ⟨h1, h2, h3⟩ := hc
    have e1 : (('+' : Char) == c) = false := beq_eq_false_iff_ne.mpr (fun e => h1 e.symm)
    have e2 : (('-' : Char) == c) = false := beq_eq_false_iff_ne.mpr (fun e => h2 e.symm)
    have e3 : (('@' : Char) == c) = false := beq_eq_false_iff_ne.mpr (fun e => h3 e.symm)
    simp [keepDiffLine, pyStartsWith, e1, e2, e3] at h

/-- No re-emitted diff line is a `File Checked:` line. -/
theorem fc_payload_kept (d0 : String) :
    ∀ s ∈ diff_kept_lines d0, fc_payload s = none := by
  intro s hs
  simp only [diff_kept_lines, List.mem_map, List.mem_filter] at hs
  obtain ⟨l, ⟨hmem, hkeep⟩, rfl⟩ := hs
  obtain ⟨c, t, rfl, hc⟩ := keep_head l hkeep
  rcases hc with rfl | rfl | rfl <;> rfl

/-- Each changed file contributes exactly one `File Checked:` line to its
report block, whichever branch (diff lines or no-content marker) it takes. -/
theorem filterMap_fc_section (d : String → String) (g : String) :
    (file_section d g).filterMap fc_payload = [g] := by
  unfold file_section
  by_cases hd : d g ≠ ""
  · rw [if_pos hd]
    rw [List.filterMap_append, List.filterMap_cons_some (fc_payload_fc g),
      List.filterMap_cons_none rfl, List.filterMap_nil]
    rw [List.filterMap_append, List.filterMap_append,
      List.filterMap_cons_none rfl, List.filterMap_cons_none rfl, List.filterMap_nil]
    rw [List.filterMap_eq_nil_iff.mpr (fc_payload_kept (d g)),
      List.filterMap_cons_none rfl, List.filterMap_nil]
    rfl
  · rw [if_neg hd]
    rw [List.filterMap_append, List.filterMap_cons_some (fc_payload_fc g),
      List.filterMap_cons_none rfl, List.filterMap_nil,
      List.filterMap_cons_none rfl, List.filterMap_nil]
    rfl

/-- The `File Checked:` lines of the whole changed-files section are, in
order, exactly the parsed paths. -/
theorem filterMap_fc_flatten (d : String → String) (files : List String) :
    ((files.map (file_section d)).flatten).filterMap fc_payload = files := by
  induction files with
  | nil => rfl
  | cons g gs ih =>
    simp only [List.map_cons, List.flatten_cons]
    rw [List.filterMap_append, filterMap_fc_section, ih]
    rfl

/-- The `File Checked:` lines of the whole report are, in order, exactly
the paths parsed from the porcelain status output. -/
theorem filterMap_fc_report (cfg : Config) (b : Backend) :
    (generate_report cfg b).filterMap fc_payload = changed_files b.statusOutput := by
  simp only [generate_report]
  rw [List.filterMap_append]
  rw [List.filterMap_cons_none rfl, List.filterMap_cons_none rfl,
    List.filterMap_cons_none rfl, List.filterMap_cons_none rfl,
    List.filterMap_cons_none rfl, List.filterMap_cons_none rfl,
    List.filterMap_cons_none rfl, List.filterMap_cons_none rfl,
    List.filterMap_cons_none rfl, List.filterMap_cons_none rfl,
    List.filterMap_nil, List.nil_append]
  by_cases hf : changed_files b.statusOutput = []
  · rw [if_neg (by simp [hf]), hf]
    rfl
  · rw [if_pos hf]
    rw [List.filterMap_append, List.filterMap_cons_none rfl,
      List.filterMap_cons_none rfl, List.filterMap_cons_none rfl,
      List.filterMap_nil, List.nil_append]
    exact filterMap_fc_flatten b.diffOutput (changed_files b.statusOutput)

/-- C3: round-trip between the porcelain status and the report.  The
`File Checked:` lines of the report are exactly the parsed status paths
(each path appears exactly once, in order); an empty status yields
`Up to date` and an empty file list, a non-empty one yields
`Uncommitted Changes Detected`; each parsed path's block carries the
no-content marker when its diff output is empty, and otherwise re-emits
every added, removed, and hunk-header diff line. -/
theorem report_round_trip :
    ∀ (cfg : Config) (b : Backend),
      (generate_report cfg b).filterMap fc_payload = changed_files b.statusOutput ∧
      (b.statusOutput = "" →
        "Status: Up to date\n" ∈ generate_report cfg b ∧
        changed_files b.statusOutput = []) ∧
      (b.statusOutput ≠ "" →
        "Status: Uncommitted Changes Detected\n" ∈ generate_report cfg b) ∧
      (∀ f ∈ changed_files b.statusOutput,
        (b.diffOutput f = "" →
          "No content changes detected.\n" ∈ generate_report cfg b) ∧
        (b.diffOutput f ≠ "" →
          ∀ l ∈ (pySplit '\n' (b.diffOutput f).data).filter keepDiffLine,
            ((⟨l⟩ : String) ++ "\n") ∈ generate_report cfg b)) := by
  intro cfg b
  refine ⟨filterMap_fc_report cfg b, fun h => ⟨?_, ?_⟩, fun h => ?_, fun f hf => ⟨?_, ?_⟩⟩
  · simp only [generate_report]
    apply List.mem_append_left
    simp [h]
  · rw [h]
    rfl
  · simp only [generate_report]
    apply List.mem_append_left
    simp [h]
  · intro hd
    have hne : changed_files b.statusOutput ≠ [] := List.ne_nil_of_mem hf
    simp only [generate_report]
    apply List.mem_append_right
    rw [if_pos hne]
    apply List.mem_append_right
    refine List.mem_flatten.mpr ⟨file_section b.diffOutput f, List.mem_map_of_mem _ hf, ?_⟩
    unfold file_section
    rw [if_neg (by simp [hd])]
    simp
  · intro hd l hl
    have hne : changed_files b.statusOutput ≠ [] := List.ne_nil_of_mem hf
    simp only [generate_report]
    apply List.mem_append_right
    rw [if_pos hne]
    apply List.mem_append_right
    refine List.mem_flatten.mpr ⟨file_section b.diffOutput f, List.mem_map_of_mem _ hf, ?_⟩
    unfold file_section
    rw [if_pos hd]
    apply List.mem_append_right
    apply List.mem_append_left
    apply List.mem_append_right
    exact List.mem_map_of_mem _ hl

/-- Witness for `report_round_trip` on a dirty tree with two changed
files, one with diff content and one without. -/
theorem report_round_trip_witness :
    (generate_report ⟨some "https://h/org/myrepo.git", some "main"⟩
        dirtyBackend).filterMap fc_payload = ["a.txt", "b.txt"] ∧
    "Status: Uncommitted Changes Detected\n" ∈
      generate_report ⟨some "https://h/org/myrepo.git", some "main"⟩ dirtyBackend ∧
    "No content changes detected.\n" ∈
      generate_report ⟨some "https://h/org/myrepo.git", some "main"⟩ dirtyBackend ∧
    ((⟨['+', 'n', 'e', 'w']⟩ : String) ++ "\n") ∈
      generate_report ⟨some "https://h/org/myrepo.git", some "main"⟩ dirtyBackend := by
  have h := report_round_trip ⟨some "https://h/org/myrepo.git", some "main"⟩ dirtyBackend
  refine ⟨h.1.trans (by decide), h.2.2.1 (by decide), ?_, ?_⟩
  · exact (h.2.2.2 "b.txt" (by decide)).1 (by decide)
  · exact (h.2.2.2 "a.txt" (by decide)).2 (by decide) ['+', 'n', 'e', 'w'] (by decide)

end GitManager
